import Mathlib

/-!
Shallow embedding of the timeline segment editor of this repository
(`apps/desktop/src/routes/editor/Timeline/CaptionTrack.tsx` and
`apps/desktop/src/routes/editor/Timeline/SceneTrack.tsx`).

Times are modelled as rationals (the source uses JS numbers and only the
field operations and order on them).  A segment collection is a `List`;
the Solid store writes `setProject("captions","segments", ...)` /
`setProject("timeline","sceneSegments", ...)` are modelled as functions
from the collection to the new collection.  The `end` field of a segment
is named `endTime` here because `end` is a Lean keyword.
-/

namespace Cap

/-- A caption segment (`project.captions.segments[i]` in the source):
`{ id: string; start: number; end: number; text: string }`. -/
structure CaptionSegment where
  id : String
  start : ℚ
  endTime : ℚ
  text : String
deriving DecidableEq, Repr

/-- Scene mode, the closed enum `"default" | "cameraOnly" | "hideCamera"`. -/
inductive SceneMode where
  | default
  | cameraOnly
  | hideCamera
deriving DecidableEq, Repr

/-- A scene segment (`project.timeline.sceneSegments[i]`):
`{ start: number; end: number; mode: SceneMode }`.  Scene segments have no id. -/
structure SceneSegment where
  start : ℚ
  endTime : ℚ
  mode : SceneMode
deriving DecidableEq, Repr

/-- The minimum segment duration hard-coded as `0.1` in both tracks'
resize handlers. -/
def minDuration : ℚ := 1 / 10

/-- The three drag kinds of `handleMouseDown(e, type)` in `CaptionTrack.tsx`
("start" | "end" | "move") and of the scene drag state
("resizing-start" | "resizing-end" | "moving"). -/
inductive DragType where
  | move
  | resizingStart
  | resizingEnd
deriving DecidableEq, Repr

/-- The JS call `segments.findIndex(s => s.id === targetId)` followed by replacing that
single index (`segments[segmentIndex] = f(segments[segmentIndex])`): the first
segment whose id matches is replaced by `f` of it; if no id matches, the
handler returns early without writing, so the list is unchanged. -/
def updateById (segments : List CaptionSegment) (targetId : String)
    (f : CaptionSegment → CaptionSegment) : List CaptionSegment :=
  match segments with
  | [] => []
  | s :: rest =>
    if s.id = targetId then f s :: rest
    else s :: updateById rest targetId f

/-- The test `segments.findIndex(s => s.id === targetId) !== -1`. -/
def containsId (segments : List CaptionSegment) (targetId : String) : Bool :=
  segments.any (fun s => s.id = targetId)

/-- Replace the element at index `i` by `f` of it; out of range leaves the
list unchanged (callers that can be out of range wrap this in a range check). -/
def updateAt (segments : List SceneSegment) (i : Nat)
    (f : SceneSegment → SceneSegment) : List SceneSegment :=
  match segments, i with
  | [], _ => []
  | s :: rest, 0 => f s :: rest
  | s :: rest, n + 1 => s :: updateAt rest n f

/-- One `handleMouseMove` tick of a caption drag (`CaptionTrack.tsx`).
`snap` is `startSegment = { ...props.segment }`, the snapshot taken at
mouse-down; `delta` is `(e.clientX - startPos) * secsPerPixel()` in seconds.
The target is addressed by id (`props.segment.id`); a missing id makes the
tick a silent no-op (`if (segmentIndex === -1) return`). -/
def captionDragTick (ty : DragType) (snap : CaptionSegment) (delta : ℚ)
    (segments : List CaptionSegment) : List CaptionSegment :=
  match ty with
  | .move =>
    updateById segments snap.id (fun s =>
      let duration := snap.endTime - snap.start
      let newStart := max 0 (snap.start + delta)
      { s with start := newStart, endTime := newStart + duration })
  | .resizingStart =>
    updateById segments snap.id (fun s =>
      { s with start := max 0 (min (snap.start + delta) (snap.endTime - minDuration)) })
  | .resizingEnd =>
    updateById segments snap.id (fun s =>
      { s with endTime := max (snap.start + minDuration) (snap.endTime + delta) })

/-- One mousemove tick of a scene drag (`SceneTrack.tsx`).  The target is
addressed by the *index* captured at mouse-down; there is no stale-reference
guard, so the write hits whatever segment currently occupies that index, and
an out-of-range index makes the store write fail (modelled as `none`).
The resize bounds use the live segment (`segment.end - 0.1`,
`segment.start + 0.1`) while the moved endpoint comes from the snapshot
`startSegment`; the move tick sets `s.start = max(0, startSegment.start +
deltaTime)` but `s.end = startSegment.end + deltaTime` unconditionally. -/
def sceneDragTick (ty : DragType) (i : Nat) (snap : SceneSegment) (delta : ℚ)
    (segments : List SceneSegment) : Option (List SceneSegment) :=
  if i < segments.length then
    some (match ty with
      | .move => updateAt segments i (fun s =>
          { s with start := max 0 (snap.start + delta), endTime := snap.endTime + delta })
      | .resizingStart => updateAt segments i (fun s =>
          { s with start := max 0 (min (snap.start + delta) (s.endTime - minDuration)) })
      | .resizingEnd => updateAt segments i (fun s =>
          { s with endTime := max (s.start + minDuration) (snap.endTime + delta) }))
  else none

/-- Observable side effects of the editor on its collaborators:
`storeWrite` is one `setProject` call, `renderFrame n` is one scheduled
`events.renderFrameEvent.emit({ frame_number: n, ... })`. -/
inductive TraceEvent where
  | storeWrite
  | renderFrame (frameNumber : ℤ)
deriving DecidableEq, Repr

/-- Whether a trace event is a render-refresh request. -/
def TraceEvent.isRenderFrame : TraceEvent → Bool
  | .storeWrite => false
  | .renderFrame _ => true

/-- The frame number `Math.floor(editorState.playbackTime * FPS)` used by
every `renderFrameEvent.emit` call.  `FPS` is a constant imported from the
editor context; it stays a parameter here. -/
def playheadFrame (playbackTime fps : ℚ) : ℤ :=
  ⌊playbackTime * fps⌋

/-- One caption tick together with its store write: `setProject` is reached
only when the id was found (`if (segmentIndex === -1) return`), and then it
is called exactly once. -/
def captionTickStep (ty : DragType) (snap : CaptionSegment)
    (st : List CaptionSegment × List TraceEvent) (delta : ℚ) :
    List CaptionSegment × List TraceEvent :=
  if containsId st.1 snap.id then
    (captionDragTick ty snap delta st.1, st.2 ++ [TraceEvent.storeWrite])
  else st

/-- A whole caption drag gesture: the mousemove ticks (one per element of
`deltas`) followed by `handleMouseUp`, which only detaches the listeners and
schedules a single `renderFrameEvent` for the playhead frame — it neither
touches nor re-sorts the collection. -/
def runCaptionGesture (ty : DragType) (snap : CaptionSegment) (deltas : List ℚ)
    (segments : List CaptionSegment) (playbackTime fps : ℚ) :
    List CaptionSegment × List TraceEvent :=
  let r := deltas.foldl (captionTickStep ty snap) (segments, [])
  (r.1, r.2 ++ [TraceEvent.renderFrame (playheadFrame playbackTime fps)])

/-- One scene tick together with its store write.  A failed (out-of-range)
store write aborts the model (`none`). -/
def sceneTickStep (ty : DragType) (i : Nat) (snap : SceneSegment)
    (st : Option (List SceneSegment × List TraceEvent)) (delta : ℚ) :
    Option (List SceneSegment × List TraceEvent) :=
  match st with
  | none => none
  | some (segs, evs) =>
    match sceneDragTick ty i snap delta segs with
    | none => none
    | some segs' => some (segs', evs ++ [TraceEvent.storeWrite])

/-- A whole scene drag gesture: the mousemove ticks followed by the scene
mouseup handler, which only resets `dragState` to idle and disposes the
listeners — it performs no store write, no re-sort, and schedules no
render-refresh (`SceneTrack.tsx` never emits `renderFrameEvent`). -/
def runSceneGesture (ty : DragType) (i : Nat) (snap : SceneSegment)
    (deltas : List ℚ) (segments : List SceneSegment) :
    Option (List SceneSegment × List TraceEvent) :=
  deltas.foldl (sceneTickStep ty i snap) (some (segments, []))

/-- Function `saveEdit` of `CaptionTrack.tsx`, restricted to its effect on the
collection: copy the array, find the segment by id, and replace only its
`text` field; if the id is missing nothing is written. -/
def saveEdit (targetId : String) (newText : String)
    (segments : List CaptionSegment) : List CaptionSegment :=
  updateById segments targetId (fun s => { s with text := newText })

/-- The state owned by one caption segment's inline editor: the shared
collection, the `isEditing` signal, the `editText` buffer, and the trace of
emitted events. -/
structure CaptionEditor where
  segments : List CaptionSegment
  isEditing : Bool
  editText : String
  events : List TraceEvent
deriving DecidableEq, Repr

/-- The full `saveEdit`: writes the buffered text into the store (when the
id is found) plus one scheduled render-refresh, and always leaves editing
mode. -/
def commitEdit (targetId : String) (playbackTime fps : ℚ)
    (st : CaptionEditor) : CaptionEditor :=
  if containsId st.segments targetId then
    { st with
      segments := saveEdit targetId st.editText st.segments,
      events := st.events ++ [TraceEvent.renderFrame (playheadFrame playbackTime fps)],
      isEditing := false }
  else { st with isEditing := false }

/-- The user-visible actions on the inline editor input: `Enter` keydown,
`Escape` keydown, an `input` event carrying the new buffer contents, and
`blur`. -/
inductive EditorAction where
  | keyEnter
  | keyEscape
  | inputText (t : String)
  | blur
deriving DecidableEq, Repr

/-- The inline editor's handlers (`onKeyDown`, `onInput`, `onBlur` of the
caption input): `Enter` runs `saveEdit`; `Escape` only clears `isEditing`
and schedules a refresh — it never writes to the store; typing only updates
the `editText` signal (plus a refresh); `blur` runs `saveEdit` and schedules
one extra refresh. -/
def editorStep (targetId : String) (playbackTime fps : ℚ)
    (st : CaptionEditor) (a : EditorAction) : CaptionEditor :=
  match a with
  | .keyEnter => commitEdit targetId playbackTime fps st
  | .keyEscape =>
    { st with
      isEditing := false,
      events := st.events ++ [TraceEvent.renderFrame (playheadFrame playbackTime fps)] }
  | .inputText t =>
    { st with
      editText := t,
      events := st.events ++ [TraceEvent.renderFrame (playheadFrame playbackTime fps)] }
  | .blur =>
    let st' := commitEdit targetId playbackTime fps st
    { st' with
      events := st'.events ++ [TraceEvent.renderFrame (playheadFrame playbackTime fps)] }

/-- JS `segments.sort((a, b) => a.start - b.start)`: a stable ascending sort
by `start`, modelled by insertion sort (stable, and agreeing with every
stable sort). -/
def sortByStart (segments : List CaptionSegment) : List CaptionSegment :=
  List.insertionSort (fun a b => a.start ≤ b.start) segments

/-- The same stable sort for scene segments. -/
def sortSceneByStart (segments : List SceneSegment) : List SceneSegment :=
  List.insertionSort (fun a b => a.start ≤ b.start) segments

/-- Ascending-by-`start` ordering of a caption collection. -/
def sortedByStart (segments : List CaptionSegment) : Prop :=
  List.Sorted (fun a b => a.start ≤ b.start) segments

/-- The timeline selection (`editorState.timeline.selection`): `null`, a
caption selection by id, or a scene selection by index. -/
inductive Selection where
  | none
  | caption (id : String)
  | scene (index : Nat)
deriving DecidableEq, Repr

/-- Handler `handleAddCaption` of `CaptionTrack.tsx`, effect on the collection:
build `{ id, start: time, end: time + 2, text: "New caption" }`, append it,
and stable-sort by `start`. -/
def handleAddCaption (playbackTime : ℚ) (newId : String)
    (segments : List CaptionSegment) : List CaptionSegment :=
  sortByStart (segments ++
    [{ id := newId, start := playbackTime, endTime := playbackTime + 2, text := "New caption" }])

/-- Handler `handleAddCaption` with its other two effects: it selects the new
segment (`setEditorState(..., { type: "caption", id })`) and schedules one
render-refresh. -/
def handleAddCaptionFull (playbackTime fps : ℚ) (newId : String)
    (segments : List CaptionSegment) :
    List CaptionSegment × Selection × List TraceEvent :=
  (handleAddCaption playbackTime newId segments,
   Selection.caption newId,
   [TraceEvent.renderFrame (playheadFrame playbackTime fps)])

/-- Function `addSceneSegment` of `SceneTrack.tsx`, effect on the collection:
build `{ start: time, end: Math.min(time + 2, transform.zoom), mode }`,
push it, and sort by `start`. -/
def addSceneSegment (playbackTime zoom : ℚ) (mode : SceneMode)
    (segments : List SceneSegment) : List SceneSegment :=
  sortSceneByStart (segments ++
    [{ start := playbackTime, endTime := min (playbackTime + 2) zoom, mode := mode }])

/-- Function `addSceneSegment` with the effects it does *not* have made explicit: the
selection is left unchanged and no render-refresh is scheduled (the button
handler only calls `setProject`). -/
def addSceneSegmentFull (playbackTime zoom : ℚ) (mode : SceneMode)
    (segments : List SceneSegment) (sel : Selection) :
    List SceneSegment × Selection × List TraceEvent :=
  (addSceneSegment playbackTime zoom mode segments, sel, [])

/-- Modelled from the spec: `secsPerPixel` is provided by
`Timeline/context.tsx`, which is not among the available sources; the spec
(§4.1) requires non-positive values to be clamped to a minimum positive
epsilon.  The epsilon's magnitude is unspecified; any positive constant
serves. -/
def minSecsPerPixel : ℚ := 1 / 1000000

/-- Modelled from the spec: the clamped seconds-per-pixel scale used by
every conversion. -/
def secsPerPixel (raw : ℚ) : ℚ :=
  max minSecsPerPixel raw

/-- Segment positioning, `(t - transform.position) / secsPerPixel()`
(`startX` in `CaptionTrack.tsx`, `segmentPixelStart` in `SceneTrack.tsx`),
over the clamped scale. -/
def timeToPixel (position t raw : ℚ) : ℚ :=
  (t - position) / secsPerPixel raw

/-- Drag-delta conversion, `deltaPixels * secsPerPixel()`, over the clamped
scale. -/
def pixelDeltaToTime (deltaPixels raw : ℚ) : ℚ :=
  deltaPixels * secsPerPixel raw

/-- The per-segment geometry invariant of the data model: `start ≥ 0` and
`end - start ≥ minDuration`. -/
def segInv (s : CaptionSegment) : Prop :=
  0 ≤ s.start ∧ s.start + minDuration ≤ s.endTime

/-- The same invariant for scene segments. -/
def sceneSegInv (s : SceneSegment) : Prop :=
  0 ≤ s.start ∧ s.start + minDuration ≤ s.endTime

instance (s : CaptionSegment) : Decidable (segInv s) := by
  unfold segInv
  infer_instance

instance (s : SceneSegment) : Decidable (sceneSegInv s) := by
  unfold sceneSegInv
  infer_instance

instance : IsTotal CaptionSegment (fun a b => a.start ≤ b.start) :=
  ⟨fun a b => le_total a.start b.start⟩

instance : IsTrans CaptionSegment (fun a b => a.start ≤ b.start) :=
  ⟨fun _ _ _ hab hbc => le_trans hab hbc⟩

instance : IsTotal SceneSegment (fun a b => a.start ≤ b.start) :=
  ⟨fun a b => le_total a.start b.start⟩

instance : IsTrans SceneSegment (fun a b => a.start ≤ b.start) :=
  ⟨fun _ _ _ hab hbc => le_trans hab hbc⟩

lemma length_updateById (segments : List CaptionSegment) (targetId : String)
    (f : CaptionSegment → CaptionSegment) :
    (updateById segments targetId f).length = segments.length := by
  induction segments with
  | nil => rfl
  | cons s rest ih =>
    by_cases h : s.id = targetId <;> simp [updateById, h, ih]

lemma mem_updateById {segments : List CaptionSegment} {targetId : String}
    {f : CaptionSegment → CaptionSegment} {s' : CaptionSegment}
    (h : s' ∈ updateById segments targetId f) :
    s' ∈ segments ∨ ∃ s ∈ segments, s.id = targetId ∧ s' = f s := by
  induction segments with
  | nil => simp [updateById] at h
  | cons s rest ih =>
    by_cases hid : s.id = targetId
    · simp only [updateById, if_pos hid, List.mem_cons] at h
      rcases h with h | h
      · exact Or.inr ⟨s, List.mem_cons_self s rest, hid, h⟩
      · exact Or.inl (List.mem_cons_of_mem s h)
    · simp only [updateById, if_neg hid, List.mem_cons] at h
      rcases h with h | h
      · exact Or.inl (h ▸ List.mem_cons_self s rest)
      · rcases ih h with h' | ⟨t, ht, htid, hts⟩
        · exact Or.inl (List.mem_cons_of_mem s h')
        · exact Or.inr ⟨t, List.mem_cons_of_mem s ht, htid, hts⟩

lemma map_updateById {β : Type} (g : CaptionSegment → β)
    (segments : List CaptionSegment) (targetId : String)
    (f : CaptionSegment → CaptionSegment) (hf : ∀ s, g (f s) = g s) :
    (updateById segments targetId f).map g = segments.map g := by
  induction segments with
  | nil => rfl
  | cons s rest ih =>
    by_cases h : s.id = targetId <;> simp [updateById, h, hf, ih]

lemma zip_self_eq {α : Type} (l : List α) : ∀ p ∈ l.zip l, p.2 = p.1 := by
  induction l with
  | nil => intro p hp; simp at hp
  | cons x xs ih =>
    intro p hp
    simp only [List.zip_cons_cons, List.mem_cons] at hp
    rcases hp with hp | hp
    · simp [hp]
    · exact ih p hp

lemma zip_updateById {segments : List CaptionSegment} {targetId : String}
    {f : CaptionSegment → CaptionSegment} :
    ∀ p ∈ segments.zip (updateById segments targetId f),
      p.2 = p.1 ∨ (p.1.id = targetId ∧ p.2 = f p.1) := by
  induction segments with
  | nil => intro p hp; simp at hp
  | cons s rest ih =>
    intro p hp
    by_cases h : s.id = targetId
    · simp only [updateById, if_pos h, List.zip_cons_cons, List.mem_cons] at hp
      rcases hp with hp | hp
      · exact Or.inr ⟨by simp [hp, h], by simp [hp]⟩
      · exact Or.inl (zip_self_eq rest p hp)
    · simp only [updateById, if_neg h, List.zip_cons_cons, List.mem_cons] at hp
      rcases hp with hp | hp
      · exact Or.inl (by simp [hp])
      · exact ih p hp

lemma updateById_eq_of_not_contains {segments : List CaptionSegment}
    {targetId : String} (f : CaptionSegment → CaptionSegment)
    (h : containsId segments targetId = false) :
    updateById segments targetId f = segments := by
  induction segments with
  | nil => rfl
  | cons s rest ih =>
    simp only [containsId, List.any_cons, Bool.or_eq_false_iff,
      decide_eq_false_iff_not] at h
    simp [updateById, h.1, ih (by simpa [containsId] using h.2)]

lemma length_updateAt (segments : List SceneSegment) (i : Nat)
    (f : SceneSegment → SceneSegment) :
    (updateAt segments i f).length = segments.length := by
  induction segments generalizing i with
  | nil => rfl
  | cons s rest ih =>
    cases i with
    | zero => simp [updateAt]
    | succ n => simp [updateAt, ih]

lemma mem_updateAt {segments : List SceneSegment} {i : Nat}
    {f : SceneSegment → SceneSegment} {s' : SceneSegment}
    (h : s' ∈ updateAt segments i f) :
    s' ∈ segments ∨ ∃ s ∈ segments, s' = f s := by
  induction segments generalizing i with
  | nil => simp [updateAt] at h
  | cons s rest ih =>
    cases i with
    | zero =>
      simp only [updateAt, List.mem_cons] at h
      rcases h with h | h
      · exact Or.inr ⟨s, List.mem_cons_self s rest, h⟩
      · exact Or.inl (List.mem_cons_of_mem s h)
    | succ n =>
      simp only [updateAt, List.mem_cons] at h
      rcases h with h | h
      · exact Or.inl (h ▸ List.mem_cons_self s rest)
      · rcases ih h with h' | ⟨t, ht, hts⟩
        · exact Or.inl (List.mem_cons_of_mem s h')
        · exact Or.inr ⟨t, List.mem_cons_of_mem s ht, hts⟩

lemma map_updateAt {β : Type} (g : SceneSegment → β)
    (segments : List SceneSegment) (i : Nat)
    (f : SceneSegment → SceneSegment) (hf : ∀ s, g (f s) = g s) :
    (updateAt segments i f).map g = segments.map g := by
  induction segments generalizing i with
  | nil => rfl
  | cons s rest ih =>
    cases i with
    | zero => simp [updateAt, hf]
    | succ n => simp [updateAt, ih]

lemma captionTickStep_of_contains {segments : List CaptionSegment}
    {snap : CaptionSegment} (ty : DragType) (evs : List TraceEvent) (delta : ℚ)
    (h : containsId segments snap.id = true) :
    captionTickStep ty snap (segments, evs) delta =
      (captionDragTick ty snap delta segments, evs ++ [TraceEvent.storeWrite]) := by
  simp [captionTickStep, h]

lemma captionTickStep_of_not_contains {segments : List CaptionSegment}
    {snap : CaptionSegment} (ty : DragType) (evs : List TraceEvent) (delta : ℚ)
    (h : containsId segments snap.id = false) :
    captionTickStep ty snap (segments, evs) delta = (segments, evs) := by
  simp [captionTickStep, h]

lemma captionFold_of_not_contains (ty : DragType) (snap : CaptionSegment)
    (deltas : List ℚ) (segments : List CaptionSegment) (evs : List TraceEvent)
    (h : containsId segments snap.id = false) :
    deltas.foldl (captionTickStep ty snap) (segments, evs) = (segments, evs) := by
  induction deltas with
  | nil => rfl
  | cons δ ds ih =>
    simp only [List.foldl_cons]
    rw [captionTickStep_of_not_contains ty evs δ h]
    exact ih

lemma captionFold_events_mem (ty : DragType) (snap : CaptionSegment)
    (deltas : List ℚ) :
    ∀ segments evs,
      ∀ e ∈ (deltas.foldl (captionTickStep ty snap) (segments, evs)).2,
        e ∈ evs ∨ e = TraceEvent.storeWrite := by
  induction deltas with
  | nil => intro segs evs e he; exact Or.inl he
  | cons δ ds ih =>
    intro segs evs e he
    simp only [List.foldl_cons] at he
    by_cases h : containsId segs snap.id
    · rw [captionTickStep_of_contains ty evs δ h] at he
      rcases ih _ _ e he with h' | h'
      · rcases List.mem_append.1 h' with h'' | h''
        · exact Or.inl h''
        · exact Or.inr (by simpa using h'')
      · exact Or.inr h'
    · rw [captionTickStep_of_not_contains ty evs δ (by simpa using h)] at he
      exact ih _ _ e he

lemma captionDragTick_map_id (ty : DragType) (snap : CaptionSegment) (delta : ℚ)
    (segments : List CaptionSegment) :
    (captionDragTick ty snap delta segments).map CaptionSegment.id =
      segments.map CaptionSegment.id := by
  cases ty <;> exact map_updateById _ _ _ _ (fun _ => rfl)

lemma captionFold_map_id (ty : DragType) (snap : CaptionSegment)
    (deltas : List ℚ) :
    ∀ segments evs,
      ((deltas.foldl (captionTickStep ty snap) (segments, evs)).1).map
          CaptionSegment.id = segments.map CaptionSegment.id := by
  induction deltas with
  | nil => intro segs evs; rfl
  | cons δ ds ih =>
    intro segs evs
    simp only [List.foldl_cons]
    by_cases h : containsId segs snap.id
    · rw [captionTickStep_of_contains ty evs δ h, ih]
      exact captionDragTick_map_id ty snap δ segs
    · rw [captionTickStep_of_not_contains ty evs δ (by simpa using h)]
      exact ih _ _

lemma sceneFold_none (ty : DragType) (i : Nat) (snap : SceneSegment)
    (deltas : List ℚ) :
    deltas.foldl (sceneTickStep ty i snap) none = none := by
  induction deltas with
  | nil => rfl
  | cons δ ds ih =>
    simp only [List.foldl_cons]
    exact ih

lemma sceneDragTick_shape {ty : DragType} {i : Nat} {snap : SceneSegment}
    {delta : ℚ} {segments r : List SceneSegment}
    (h : sceneDragTick ty i snap delta segments = some r) :
    r.length = segments.length ∧
      r.map SceneSegment.mode = segments.map SceneSegment.mode := by
  unfold sceneDragTick at h
  split at h
  · cases ty <;>
      · simp only [Option.some.injEq] at h
        subst h
        exact ⟨length_updateAt _ _ _, map_updateAt _ _ _ _ (fun _ => rfl)⟩
  · exact absurd h (by simp)

lemma sceneFold_shape (ty : DragType) (i : Nat) (snap : SceneSegment)
    (deltas : List ℚ) :
    ∀ segments evs r,
      deltas.foldl (sceneTickStep ty i snap) (some (segments, evs)) = some r →
        r.1.length = segments.length ∧
        r.1.map SceneSegment.mode = segments.map SceneSegment.mode ∧
        ∀ e ∈ r.2, e ∈ evs ∨ e = TraceEvent.storeWrite := by
  induction deltas with
  | nil =>
    intro segs evs r h
    simp only [List.foldl_nil, Option.some.injEq] at h
    subst h
    exact ⟨rfl, rfl, fun e he => Or.inl he⟩
  | cons δ ds ih =>
    intro segs evs r h
    simp only [List.foldl_cons] at h
    rcases hone : sceneDragTick ty i snap δ segs with _ | segs'
    · rw [show sceneTickStep ty i snap (some (segs, evs)) δ = none from by
        simp [sceneTickStep, hone]] at h
      exact absurd (h ▸ sceneFold_none ty i snap ds) (by simp [h])
    · rw [show sceneTickStep ty i snap (some (segs, evs)) δ =
          some (segs', evs ++ [TraceEvent.storeWrite]) from by
        simp [sceneTickStep, hone]] at h
      rcases ih segs' (evs ++ [TraceEvent.storeWrite]) r h with ⟨h1, h2, h3⟩
      rcases sceneDragTick_shape hone with ⟨g1, g2⟩
      refine ⟨h1.trans g1, h2.trans g2, fun e he => ?_⟩
      rcases h3 e he with h' | h'
      · rcases List.mem_append.1 h' with h'' | h''
        · exact Or.inl h''
        · exact Or.inr (by simpa using h'')
      · exact Or.inr h'

lemma exists_zip_updateById {segments : List CaptionSegment} {targetId : String}
    {f : CaptionSegment → CaptionSegment}
    (h : containsId segments targetId = true) :
    ∃ p ∈ segments.zip (updateById segments targetId f),
      p.1.id = targetId ∧ p.2 = f p.1 := by
  induction segments with
  | nil => simp [containsId] at h
  | cons s rest ih =>
    by_cases hid : s.id = targetId
    · exact ⟨(s, f s), by simp [updateById, hid], hid, rfl⟩
    · have hrest : containsId rest targetId = true := by
        simpa [containsId, hid] using h
      rcases ih hrest with ⟨p, hp, hp1, hp2⟩
      refine ⟨p, ?_, hp1, hp2⟩
      simp only [updateById, if_neg hid, List.zip_cons_cons]
      exact List.mem_cons_of_mem _ hp

lemma commitEdit_segments (targetId : String) (playbackTime fps : ℚ)
    (st : CaptionEditor) :
    (commitEdit targetId playbackTime fps st).segments =
      saveEdit targetId st.editText st.segments := by
  unfold commitEdit
  by_cases h : containsId st.segments targetId
  · simp [h]
  · simp [h, saveEdit, updateById_eq_of_not_contains _ (by simpa using h)]

lemma inputFold_preserves (targetId : String) (playbackTime fps : ℚ) :
    ∀ (texts : List String) (st : CaptionEditor),
      ((texts.map EditorAction.inputText).foldl
        (editorStep targetId playbackTime fps) st).segments = st.segments := by
  intro texts
  induction texts with
  | nil => intro st; rfl
  | cons t ts ih =>
    intro st
    simp only [List.map_cons, List.foldl_cons]
    rw [ih]
    rfl

/-- C8: the viewport transform tolerates `secsPerPixel ≤ 0`: the scale actually
used by the time-to-pixel conversion (segment positioning) and by the
pixel-to-time conversion (drag delta) is clamped to the minimum positive
epsilon, so it is always positive and the division is exactly inverted by the
multiplication — no infinite or NaN coordinate can arise.  (`secsPerPixel` is
defined in `Timeline/context.tsx`, outside the available sources, and is
modelled from the spec's clamping requirement.) -/
theorem c8_secsPerPixel_clamped :
    ∀ raw : ℚ,
      0 < secsPerPixel raw ∧
      (raw ≤ 0 → secsPerPixel raw = minSecsPerPixel) ∧
      ∀ position t : ℚ,
        timeToPixel position t raw * secsPerPixel raw = t - position ∧
        pixelDeltaToTime (timeToPixel position t raw) raw = t - position := by
  intro raw
  have heps : (0 : ℚ) < minSecsPerPixel := by norm_num [minSecsPerPixel]
  have hpos : 0 < secsPerPixel raw := lt_of_lt_of_le heps (le_max_left _ _)
  refine ⟨hpos, fun hraw => ?_, fun position t => ?_⟩
  · exact max_eq_left (le_trans hraw heps.le)
  · constructor
    · exact div_mul_cancel₀ _ hpos.ne'
    · show timeToPixel position t raw * secsPerPixel raw = t - position
      exact div_mul_cancel₀ _ hpos.ne'

/-- Witness for C8 at `raw = -1`, `position = 0`, `t = 3`. -/
theorem c8_witness :
    secsPerPixel (-1) = minSecsPerPixel ∧
      timeToPixel 0 3 (-1) * secsPerPixel (-1) = 3 - 0 :=
  ⟨(c8_secsPerPixel_clamped (-1)).2.1 (by norm_num),
   ((c8_secsPerPixel_clamped (-1)).2.2 0 3).1⟩

/-- C9: in the caption inline editor, `Escape` (even after any amount of
typing) leaves the stored collection exactly as it was before the edit began
and exits editing mode, while `Enter` or `blur` after typing text `t` commits
`t` to the store through `saveEdit`. -/
theorem c9_escape_reverts_enter_commits :
    ∀ (st : CaptionEditor) (targetId : String) (playbackTime fps : ℚ)
      (texts : List String) (t : String),
      (editorStep targetId playbackTime fps
          ((texts.map EditorAction.inputText).foldl
            (editorStep targetId playbackTime fps) st)
          EditorAction.keyEscape).segments = st.segments ∧
      (editorStep targetId playbackTime fps
          ((texts.map EditorAction.inputText).foldl
            (editorStep targetId playbackTime fps) st)
          EditorAction.keyEscape).isEditing = false ∧
      (editorStep targetId playbackTime fps
          (editorStep targetId playbackTime fps st (EditorAction.inputText t))
          EditorAction.keyEnter).segments = saveEdit targetId t st.segments ∧
      (editorStep targetId playbackTime fps
          (editorStep targetId playbackTime fps st (EditorAction.inputText t))
          EditorAction.blur).segments = saveEdit targetId t st.segments := by
  intro st targetId playbackTime fps texts t
  refine ⟨?_, rfl, ?_, ?_⟩
  · show ((texts.map EditorAction.inputText).foldl
      (editorStep targetId playbackTime fps) st).segments = st.segments
    exact inputFold_preserves targetId playbackTime fps texts st
  · show (commitEdit targetId playbackTime fps
      { st with editText := t,
                events := st.events ++
                  [TraceEvent.renderFrame (playheadFrame playbackTime fps)] }).segments =
      saveEdit targetId t st.segments
    rw [commitEdit_segments]
  · show (commitEdit targetId playbackTime fps
      { st with editText := t,
                events := st.events ++
                  [TraceEvent.renderFrame (playheadFrame playbackTime fps)] }).segments =
      saveEdit targetId t st.segments
    rw [commitEdit_segments]

/-- C10: committing a caption text edit updates only the `text` field of the
(first) segment carrying the edited id: lengths, the id sequence, the start
sequence and the end sequence are all unchanged (hence the order is
unchanged), every position holds either its old segment or its old segment
with only `text` replaced, and when the id is present, the matching position
does receive the new text. -/
theorem c10_saveEdit_only_text :
    ∀ (segments : List CaptionSegment) (targetId newText : String),
      (saveEdit targetId newText segments).length = segments.length ∧
      (saveEdit targetId newText segments).map CaptionSegment.id =
        segments.map CaptionSegment.id ∧
      (saveEdit targetId newText segments).map CaptionSegment.start =
        segments.map CaptionSegment.start ∧
      (saveEdit targetId newText segments).map CaptionSegment.endTime =
        segments.map CaptionSegment.endTime ∧
      (∀ p ∈ segments.zip (saveEdit targetId newText segments),
        p.2 = p.1 ∨ (p.1.id = targetId ∧ p.2 = { p.1 with text := newText })) ∧
      (containsId segments targetId = true →
        ∃ p ∈ segments.zip (saveEdit targetId newText segments),
          p.1.id = targetId ∧ p.2.text = newText) := by
  intro segments targetId newText
  refine ⟨length_updateById _ _ _,
    map_updateById _ _ _ _ (fun _ => rfl),
    map_updateById _ _ _ _ (fun _ => rfl),
    map_updateById _ _ _ _ (fun _ => rfl),
    zip_updateById, fun h => ?_⟩
  rcases exists_zip_updateById (f := fun s => { s with text := newText }) h with
    ⟨p, hp, hp1, hp2⟩
  exact ⟨p, hp, hp1, by rw [hp2]⟩

/-- Witness for C10: committing text "x" on id "a" in a one-segment
collection reaches the segment and writes the text. -/
theorem c10_witness :
    ∃ p ∈ ([⟨"a", 0, 2, "hi"⟩] : List CaptionSegment).zip
        (saveEdit ("a") ("x") [⟨"a", 0, 2, "hi"⟩]),
      p.1.id = "a" ∧ p.2.text = "x" :=
  (c10_saveEdit_only_text [⟨"a", 0, 2, "hi"⟩] ("a") ("x")).2.2.2.2.2 (by decide)

/-- C1 (amended): on every move tick the updated segment's `start` is
`max 0 (snapshotStart + deltaPixels * secsPerPixel)`.  On the caption track
(`end: newStart + duration`) the duration equals the snapshot duration
exactly on every tick; on the scene track the tick instead sets
`end = snapshotEnd + delta` unconditionally, so the duration is preserved
exactly only when the floor at 0 does not engage
(`snapshotStart + delta ≥ 0`) — when it does, the duration shrinks (see the
counterexample). -/
theorem c1_move_tick_from_snapshot :
    (∀ (segments : List CaptionSegment) (snap : CaptionSegment) (dp raw : ℚ),
      ∀ s' ∈ captionDragTick DragType.move snap (pixelDeltaToTime dp raw) segments,
        s' ∈ segments ∨
          (s'.id = snap.id ∧
           s'.start = max 0 (snap.start + pixelDeltaToTime dp raw) ∧
           s'.endTime - s'.start = snap.endTime - snap.start)) ∧
    (∀ (segments r : List SceneSegment) (i : Nat) (snap : SceneSegment) (dp raw : ℚ),
      sceneDragTick DragType.move i snap (pixelDeltaToTime dp raw) segments = some r →
        ∀ s' ∈ r,
          s' ∈ segments ∨
            (s'.start = max 0 (snap.start + pixelDeltaToTime dp raw) ∧
             s'.endTime = snap.endTime + pixelDeltaToTime dp raw ∧
             (0 ≤ snap.start + pixelDeltaToTime dp raw →
               s'.endTime - s'.start = snap.endTime - snap.start))) := by
  constructor
  · intro segments snap dp raw s' hs'
    simp only [captionDragTick] at hs'
    rcases mem_updateById hs' with hmem | ⟨s, _, hid, rfl⟩
    · exact Or.inl hmem
    · refine Or.inr ⟨hid, rfl, ?_⟩
      show max 0 (snap.start + pixelDeltaToTime dp raw) +
          (snap.endTime - snap.start) -
          max 0 (snap.start + pixelDeltaToTime dp raw) =
        snap.endTime - snap.start
      ring
  · intro segments r i snap dp raw h s' hs'
    unfold sceneDragTick at h
    split at h
    · simp only [Option.some.injEq] at h
      subst h
      rcases mem_updateAt hs' with hmem | ⟨s, _, rfl⟩
      · exact Or.inl hmem
      · refine Or.inr ⟨rfl, rfl, fun hfloor => ?_⟩
        show snap.endTime + pixelDeltaToTime dp raw -
            max 0 (snap.start + pixelDeltaToTime dp raw) =
          snap.endTime - snap.start
        rw [max_eq_right hfloor]
        ring
    · exact absurd h (by simp)

/-- Witness for C1 at a caption move of one segment by one pixel at scale 1:
the id is preserved, `start` follows the snapshot formula, and the duration
is preserved. -/
theorem c1_witness :
    (⟨"a", 1, 4, "x"⟩ : CaptionSegment) ∈ ([⟨"a", 0, 3, "x"⟩] : List CaptionSegment) ∨
      ((⟨"a", 1, 4, "x"⟩ : CaptionSegment).id = (⟨"a", 0, 3, "x"⟩ : CaptionSegment).id ∧
       (⟨"a", 1, 4, "x"⟩ : CaptionSegment).start =
         max 0 ((⟨"a", 0, 3, "x"⟩ : CaptionSegment).start + pixelDeltaToTime 1 1) ∧
       (⟨"a", 1, 4, "x"⟩ : CaptionSegment).endTime -
           (⟨"a", 1, 4, "x"⟩ : CaptionSegment).start =
         (⟨"a", 0, 3, "x"⟩ : CaptionSegment).endTime -
           (⟨"a", 0, 3, "x"⟩ : CaptionSegment).start) :=
  c1_move_tick_from_snapshot.1 [⟨"a", 0, 3, "x"⟩] ⟨"a", 0, 3, "x"⟩ 1 1
    ⟨"a", 1, 4, "x"⟩ (by with_unfolding_all decide)

/-- C1 counterexample: a scene move tick with snapshot `[1, 2]` and
`delta = -2` floors `start` at 0 but still moves `end` to `0`: the duration
drops from `1` to `0`, so the duration is not preserved on every tick of
every (caption or scene) move gesture. -/
theorem c1_counterexample :
    sceneDragTick DragType.move 0 ⟨1, 2, SceneMode.default⟩ (-2)
        [⟨1, 2, SceneMode.default⟩] =
      some [⟨0, 0, SceneMode.default⟩] ∧
    ¬ ((⟨0, 0, SceneMode.default⟩ : SceneSegment).endTime -
          (⟨0, 0, SceneMode.default⟩ : SceneSegment).start =
        (⟨1, 2, SceneMode.default⟩ : SceneSegment).endTime -
          (⟨1, 2, SceneMode.default⟩ : SceneSegment).start) := by
  with_unfolding_all decide

/-- C2: every resize tick clamps as specified and can never produce
`end - start < minDuration`.  On both tracks, for a start-edge resize every
resulting segment keeps `end - start ≥ minDuration` (given the collection
satisfied the geometry invariant, and — for the caption track, whose bound
is the snapshot's end — that the target's end still equals the snapshot end,
which holds throughout a gesture since a start-resize never writes `end`),
and the updated segment's `start` is exactly
`max 0 (min (snapshotStart + delta) (currentEnd - minDuration))`; dually for
an end-edge resize, `end = max (currentStart + minDuration) (snapshotEnd +
delta)`.  Crossing the bound lands exactly on the boundary value by these
equations. -/
theorem c2_resize_clamps :
    (∀ (segments : List CaptionSegment) (snap : CaptionSegment) (delta : ℚ),
      (∀ s ∈ segments, segInv s) →
      (∀ s ∈ segments, s.id = snap.id → s.endTime = snap.endTime) →
      ∀ s' ∈ captionDragTick DragType.resizingStart snap delta segments,
        minDuration ≤ s'.endTime - s'.start ∧
        (s' ∈ segments ∨
          s'.start = max 0 (min (snap.start + delta) (s'.endTime - minDuration)))) ∧
    (∀ (segments : List CaptionSegment) (snap : CaptionSegment) (delta : ℚ),
      (∀ s ∈ segments, segInv s) →
      (∀ s ∈ segments, s.id = snap.id → s.start = snap.start) →
      ∀ s' ∈ captionDragTick DragType.resizingEnd snap delta segments,
        minDuration ≤ s'.endTime - s'.start ∧
        (s' ∈ segments ∨
          s'.endTime = max (s'.start + minDuration) (snap.endTime + delta))) ∧
    (∀ (segments r : List SceneSegment) (i : Nat) (snap : SceneSegment) (delta : ℚ),
      sceneDragTick DragType.resizingStart i snap delta segments = some r →
      (∀ s ∈ segments, sceneSegInv s) →
      ∀ s' ∈ r,
        minDuration ≤ s'.endTime - s'.start ∧
        (s' ∈ segments ∨
          s'.start = max 0 (min (snap.start + delta) (s'.endTime - minDuration)))) ∧
    (∀ (segments r : List SceneSegment) (i : Nat) (snap : SceneSegment) (delta : ℚ),
      sceneDragTick DragType.resizingEnd i snap delta segments = some r →
      (∀ s ∈ segments, sceneSegInv s) →
      ∀ s' ∈ r,
        minDuration ≤ s'.endTime - s'.start ∧
        (s' ∈ segments ∨
          s'.endTime = max (s'.start + minDuration) (snap.endTime + delta))) := by
  refine ⟨?_, ?_, ?_, ?_⟩
  · intro segments snap delta h1 h2 s' hs'
    simp only [captionDragTick] at hs'
    rcases mem_updateById hs' with hmem | ⟨s, hs, hid, rfl⟩
    · rcases h1 s' hmem with ⟨_, hb⟩
      exact ⟨by linarith, Or.inl hmem⟩
    · rcases h1 s hs with ⟨ha, hb⟩
      have he := h2 s hs hid
      have hm : max 0 (min (snap.start + delta) (snap.endTime - minDuration)) ≤
          snap.endTime - minDuration :=
        max_le (by linarith) (min_le_right _ _)
      constructor
      · show minDuration ≤ s.endTime -
          max 0 (min (snap.start + delta) (snap.endTime - minDuration))
        linarith
      · right
        show max 0 (min (snap.start + delta) (snap.endTime - minDuration)) =
          max 0 (min (snap.start + delta) (s.endTime - minDuration))
        rw [he]
  · intro segments snap delta h1 h2 s' hs'
    simp only [captionDragTick] at hs'
    rcases mem_updateById hs' with hmem | ⟨s, hs, hid, rfl⟩
    · rcases h1 s' hmem with ⟨_, hb⟩
      exact ⟨by linarith, Or.inl hmem⟩
    · rcases h1 s hs with ⟨ha, _⟩
      have he := h2 s hs hid
      have hm : snap.start + minDuration ≤
          max (snap.start + minDuration) (snap.endTime + delta) :=
        le_max_left _ _
      constructor
      · show minDuration ≤
          max (snap.start + minDuration) (snap.endTime + delta) - s.start
        linarith [he ▸ hm]
      · right
        show max (snap.start + minDuration) (snap.endTime + delta) =
          max (s.start + minDuration) (snap.endTime + delta)
        rw [he]
  · intro segments r i snap delta h h1 s' hs'
    unfold sceneDragTick at h
    split at h
    · simp only [Option.some.injEq] at h
      subst h
      rcases mem_updateAt hs' with hmem | ⟨s, hs, rfl⟩
      · rcases h1 s' hmem with ⟨_, hb⟩
        exact ⟨by linarith, Or.inl hmem⟩
      · rcases h1 s hs with ⟨ha, hb⟩
        have hm : max 0 (min (snap.start + delta) (s.endTime - minDuration)) ≤
            s.endTime - minDuration :=
          max_le (by linarith) (min_le_right _ _)
        constructor
        · show minDuration ≤ s.endTime -
            max 0 (min (snap.start + delta) (s.endTime - minDuration))
          linarith
        · exact Or.inr rfl
    · exact absurd h (by simp)
  · intro segments r i snap delta h h1 s' hs'
    unfold sceneDragTick at h
    split at h
    · simp only [Option.some.injEq] at h
      subst h
      rcases mem_updateAt hs' with hmem | ⟨s, hs, rfl⟩
      · rcases h1 s' hmem with ⟨_, hb⟩
        exact ⟨by linarith, Or.inl hmem⟩
      · rcases h1 s hs with ⟨ha, _⟩
        constructor
        · show minDuration ≤
            max (s.start + minDuration) (snap.endTime + delta) - s.start
          have hm : s.start + minDuration ≤
              max (s.start + minDuration) (snap.endTime + delta) :=
            le_max_left _ _
          linarith
        · exact Or.inr rfl
    · exact absurd h (by simp)

/-- Witness for C2: a start-edge caption resize by `delta = 0` on a segment
`[0, 2]` keeps the minimum duration. -/
theorem c2_witness :
    minDuration ≤ (⟨"a", 0, 2, "hi"⟩ : CaptionSegment).endTime -
      (⟨"a", 0, 2, "hi"⟩ : CaptionSegment).start :=
  ((c2_resize_clamps.1 [⟨"a", 0, 2, "hi"⟩] ⟨"a", 0, 2, "hi"⟩ 0
      (by with_unfolding_all decide) (by decide)
      ⟨"a", 0, 2, "hi"⟩ (by with_unfolding_all decide))).1

/-- C3 (amended): completing a drag gesture does not re-sort the collection
at pointer-up.  A caption gesture — ticks plus the pointer-up handler —
leaves the id sequence of the collection exactly as it was (so no
re-ordering of any kind takes place), and a scene gesture likewise preserves
the length and the mode sequence; consequently the ascending-by-`start`
invariant need not hold after a gesture that dragged a segment past a
sibling (see the counterexample).  Sorting happens only in the add-segment
actions. -/
theorem c3_mouseup_never_resorts :
    (∀ (ty : DragType) (snap : CaptionSegment) (deltas : List ℚ)
       (segments : List CaptionSegment) (playbackTime fps : ℚ),
      ((runCaptionGesture ty snap deltas segments playbackTime fps).1).map
          CaptionSegment.id = segments.map CaptionSegment.id) ∧
    (∀ (ty : DragType) (i : Nat) (snap : SceneSegment) (deltas : List ℚ)
       (segments : List SceneSegment) (r : List SceneSegment × List TraceEvent),
      runSceneGesture ty i snap deltas segments = some r →
        r.1.length = segments.length ∧
        r.1.map SceneSegment.mode = segments.map SceneSegment.mode) := by
  constructor
  · intro ty snap deltas segments playbackTime fps
    exact captionFold_map_id ty snap deltas segments []
  · intro ty i snap deltas segments r h
    rcases sceneFold_shape ty i snap deltas segments [] r h with ⟨h1, h2, _⟩
    exact ⟨h1, h2⟩

/-- Witness for C3's scene conjunct at an empty gesture on one segment. -/
theorem c3_witness :
    ([⟨0, 1, SceneMode.default⟩] : List SceneSegment).length =
        ([⟨0, 1, SceneMode.default⟩] : List SceneSegment).length ∧
      ([⟨0, 1, SceneMode.default⟩] : List SceneSegment).map SceneSegment.mode =
        ([⟨0, 1, SceneMode.default⟩] : List SceneSegment).map SceneSegment.mode :=
  c3_mouseup_never_resorts.2 DragType.move 0 ⟨0, 1, SceneMode.default⟩ []
    [⟨0, 1, SceneMode.default⟩] ([⟨0, 1, SceneMode.default⟩], []) rfl

/-- C3 counterexample: the spec's own scenario — move caption `a` `[0, 3]`
right by 6 seconds past `b` `[5, 8]` and release.  The completed gesture
yields `[a(6, 9), b(5, 8)]`, which is not sorted ascending by `start`: the
collection is not re-sorted after the gesture completes. -/
theorem c3_counterexample :
    (runCaptionGesture DragType.move ⟨"a", 0, 3, "x"⟩ [6]
        [⟨"a", 0, 3, "x"⟩, ⟨"b", 5, 8, "y"⟩] 0 30).1 =
      [⟨"a", 6, 9, "x"⟩, ⟨"b", 5, 8, "y"⟩] ∧
    ¬ sortedByStart [⟨"a", 6, 9, "x"⟩, ⟨"b", 5, 8, "y"⟩] := by
  constructor
  · with_unfolding_all decide
  · unfold sortedByStart List.Sorted
    with_unfolding_all decide

/-- C4 (amended): a completed caption drag gesture schedules exactly one
render-refresh request, and it is the last event of the gesture's trace, so
it occurs after every store write of the gesture; a completed scene drag
gesture schedules none (`SceneTrack.tsx` never emits `renderFrameEvent`). -/
theorem c4_one_refresh_per_caption_gesture :
    (∀ (ty : DragType) (snap : CaptionSegment) (deltas : List ℚ)
       (segments : List CaptionSegment) (playbackTime fps : ℚ),
      ((runCaptionGesture ty snap deltas segments playbackTime fps).2).countP
          TraceEvent.isRenderFrame = 1 ∧
      ((runCaptionGesture ty snap deltas segments playbackTime fps).2).getLast? =
        some (TraceEvent.renderFrame (playheadFrame playbackTime fps))) ∧
    (∀ (ty : DragType) (i : Nat) (snap : SceneSegment) (deltas : List ℚ)
       (segments : List SceneSegment) (r : List SceneSegment × List TraceEvent),
      runSceneGesture ty i snap deltas segments = some r →
        r.2.countP TraceEvent.isRenderFrame = 0) := by
  constructor
  · intro ty snap deltas segments playbackTime fps
    have hmem := captionFold_events_mem ty snap deltas segments []
    have h0 : ((deltas.foldl (captionTickStep ty snap) (segments, [])).2).countP
        TraceEvent.isRenderFrame = 0 := by
      rw [List.countP_eq_zero]
      intro e he
      rcases hmem e he with h | h
      · simp at h
      · simp [h, TraceEvent.isRenderFrame]
    constructor
    · show ((deltas.foldl (captionTickStep ty snap) (segments, [])).2 ++
          [TraceEvent.renderFrame (playheadFrame playbackTime fps)]).countP
          TraceEvent.isRenderFrame = 1
      rw [List.countP_append, h0]
      simp [TraceEvent.isRenderFrame]
    · show ((deltas.foldl (captionTickStep ty snap) (segments, [])).2 ++
          [TraceEvent.renderFrame (playheadFrame playbackTime fps)]).getLast? =
        some (TraceEvent.renderFrame (playheadFrame playbackTime fps))
      simp [List.getLast?_concat]
  · intro ty i snap deltas segments r h
    rcases sceneFold_shape ty i snap deltas segments [] r h with ⟨_, _, h3⟩
    rw [List.countP_eq_zero]
    intro e he
    rw [(h3 e he).resolve_left (by simp)]
    simp [TraceEvent.isRenderFrame]

/-- Witness for C4's scene conjunct at a one-tick scene move. -/
theorem c4_witness :
    ([TraceEvent.storeWrite] : List TraceEvent).countP TraceEvent.isRenderFrame = 0 :=
  c4_one_refresh_per_caption_gesture.2 DragType.move 0 ⟨0, 3, SceneMode.default⟩
    [1] [⟨0, 3, SceneMode.default⟩] ([⟨1, 4, SceneMode.default⟩], [TraceEvent.storeWrite])
    (by with_unfolding_all decide)

/-- C4 counterexample: a completed one-tick scene move gesture applies its
store write but schedules zero render-refresh requests, not exactly one. -/
theorem c4_counterexample :
    runSceneGesture DragType.move 0 ⟨0, 3, SceneMode.default⟩ [1]
        [⟨0, 3, SceneMode.default⟩] =
      some ([⟨1, 4, SceneMode.default⟩], [TraceEvent.storeWrite]) ∧
    ¬ (([TraceEvent.storeWrite] : List TraceEvent).countP
        TraceEvent.isRenderFrame = 1) := by
  with_unfolding_all decide

/-- C5 (amended): the caption mutations — move tick, resize ticks, text
commit, add-at-playhead (with a nonnegative playhead) — and the scene resize
ticks all preserve the per-segment geometry invariant `start ≥ 0 ∧
end - start ≥ minDuration` for every segment of the collection (the move and
caption-resize cases additionally assume the gesture consistency that holds
across one gesture: the snapshot satisfies the invariant, resp. the target's
unresized endpoint still equals its snapshot value).  The scene *move* tick
does not preserve it: when the floor at 0 engages it can drive `end - start`
below `minDuration` and even below `0` (see the counterexample). -/
theorem c5_mutations_preserve_invariant :
    (∀ (segments : List CaptionSegment) (snap : CaptionSegment) (delta : ℚ),
      segInv snap → (∀ s ∈ segments, segInv s) →
      ∀ s' ∈ captionDragTick DragType.move snap delta segments, segInv s') ∧
    (∀ (segments : List CaptionSegment) (snap : CaptionSegment) (delta : ℚ),
      (∀ s ∈ segments, segInv s) →
      (∀ s ∈ segments, s.id = snap.id → s.endTime = snap.endTime) →
      ∀ s' ∈ captionDragTick DragType.resizingStart snap delta segments, segInv s') ∧
    (∀ (segments : List CaptionSegment) (snap : CaptionSegment) (delta : ℚ),
      (∀ s ∈ segments, segInv s) →
      (∀ s ∈ segments, s.id = snap.id → s.start = snap.start) →
      ∀ s' ∈ captionDragTick DragType.resizingEnd snap delta segments, segInv s') ∧
    (∀ (segments : List CaptionSegment) (targetId newText : String),
      (∀ s ∈ segments, segInv s) →
      ∀ s' ∈ saveEdit targetId newText segments, segInv s') ∧
    (∀ (segments : List CaptionSegment) (playbackTime : ℚ) (newId : String),
      0 ≤ playbackTime → (∀ s ∈ segments, segInv s) →
      ∀ s' ∈ handleAddCaption playbackTime newId segments, segInv s') ∧
    (∀ (segments r : List SceneSegment) (i : Nat) (snap : SceneSegment) (delta : ℚ),
      sceneDragTick DragType.resizingStart i snap delta segments = some r →
      (∀ s ∈ segments, sceneSegInv s) → ∀ s' ∈ r, sceneSegInv s') ∧
    (∀ (segments r : List SceneSegment) (i : Nat) (snap : SceneSegment) (delta : ℚ),
      sceneDragTick DragType.resizingEnd i snap delta segments = some r →
      (∀ s ∈ segments, sceneSegInv s) → ∀ s' ∈ r, sceneSegInv s') := by
  refine ⟨?_, ?_, ?_, ?_, ?_, ?_, ?_⟩
  · intro segments snap delta hsnap h1 s' hs'
    simp only [captionDragTick] at hs'
    rcases mem_updateById hs' with hmem | ⟨s, hs, _, rfl⟩
    · exact h1 s' hmem
    · rcases hsnap with ⟨_, hd⟩
      refine ⟨le_max_left _ _, ?_⟩
      show max 0 (snap.start + delta) + minDuration ≤
        max 0 (snap.start + delta) + (snap.endTime - snap.start)
      linarith
  · intro segments snap delta h1 h2 s' hs'
    simp only [captionDragTick] at hs'
    rcases mem_updateById hs' with hmem | ⟨s, hs, hid, rfl⟩
    · exact h1 s' hmem
    · rcases h1 s hs with ⟨ha, hb⟩
      have he := h2 s hs hid
      have hm : max 0 (min (snap.start + delta) (snap.endTime - minDuration)) ≤
          snap.endTime - minDuration :=
        max_le (by linarith) (min_le_right _ _)
      refine ⟨le_max_left _ _, ?_⟩
      show max 0 (min (snap.start + delta) (snap.endTime - minDuration)) +
        minDuration ≤ s.endTime
      linarith
  · intro segments snap delta h1 h2 s' hs'
    simp only [captionDragTick] at hs'
    rcases mem_updateById hs' with hmem | ⟨s, hs, hid, rfl⟩
    · exact h1 s' hmem
    · rcases h1 s hs with ⟨ha, _⟩
      have he := h2 s hs hid
      refine ⟨ha, ?_⟩
      show s.start + minDuration ≤
        max (snap.start + minDuration) (snap.endTime + delta)
      rw [← he]
      exact le_max_left _ _
  · intro segments targetId newText h1 s' hs'
    rcases mem_updateById hs' with hmem | ⟨s, hs, _, rfl⟩
    · exact h1 s' hmem
    · exact h1 s hs
  · intro segments playbackTime newId hpt h1 s' hs'
    have hmem : s' ∈ segments ++
        [{ id := newId, start := playbackTime, endTime := playbackTime + 2,
           text := "New caption" }] :=
      (List.perm_insertionSort _ _).mem_iff.1 hs'
    rcases List.mem_append.1 hmem with hmem' | hmem'
    · exact h1 s' hmem'
    · rcases List.mem_singleton.1 hmem' with rfl
      exact ⟨hpt, by norm_num [minDuration]⟩
  · intro segments r i snap delta h h1 s' hs'
    unfold sceneDragTick at h
    split at h
    · simp only [Option.some.injEq] at h
      subst h
      rcases mem_updateAt hs' with hmem | ⟨s, hs, rfl⟩
      · exact h1 s' hmem
      · rcases h1 s hs with ⟨ha, hb⟩
        have hm : max 0 (min (snap.start + delta) (s.endTime - minDuration)) ≤
            s.endTime - minDuration :=
          max_le (by linarith) (min_le_right _ _)
        refine ⟨le_max_left _ _, ?_⟩
        show max 0 (min (snap.start + delta) (s.endTime - minDuration)) +
          minDuration ≤ s.endTime
        linarith
    · exact absurd h (by simp)
  · intro segments r i snap delta h h1 s' hs'
    unfold sceneDragTick at h
    split at h
    · simp only [Option.some.injEq] at h
      subst h
      rcases mem_updateAt hs' with hmem | ⟨s, hs, rfl⟩
      · exact h1 s' hmem
      · rcases h1 s hs with ⟨ha, _⟩
        exact ⟨ha, le_max_left _ _⟩
    · exact absurd h (by simp)

/-- Witness for C5: adding a caption at playhead 5 to an empty collection
yields a segment satisfying the geometry invariant. -/
theorem c5_witness :
    segInv ⟨"n", 5, 7, "New caption"⟩ :=
  c5_mutations_preserve_invariant.2.2.2.2.1 [] 5 ("n") (by norm_num)
    (by intro s hs; simp at hs) ⟨"n", 5, 7, "New caption"⟩
    (by with_unfolding_all decide)

/-- C5 counterexample: a scene move tick on the invariant-satisfying
collection `[[1, 2]]` with `delta = -3` produces the segment `[0, -1]`,
which violates `end - start ≥ minDuration` (indeed `end < start`): not every
editor mutation preserves the segment invariant. -/
theorem c5_counterexample :
    sceneSegInv ⟨1, 2, SceneMode.default⟩ ∧
    sceneDragTick DragType.move 0 ⟨1, 2, SceneMode.default⟩ (-3)
        [⟨1, 2, SceneMode.default⟩] =
      some [⟨0, -1, SceneMode.default⟩] ∧
    ¬ sceneSegInv ⟨0, -1, SceneMode.default⟩ := by
  with_unfolding_all decide

/-- C6 (amended): the caption add-at-playhead action behaves as claimed —
it creates `{start: t, end: t + 2, text: "New caption"}`, appends it,
re-sorts the collection ascending by `start`, selects the new segment,
schedules one refresh, and on the spec's example (`t = 5` into
`[{start: 0, end: 2}]`) yields `[{start: 0, end: 2}, {start: 5, end: 7}]`.
The scene add action instead clamps the new segment's end to
`min(t + 2, zoom)`, appends and sorts, but leaves the selection unchanged
and schedules no refresh (see the counterexample). -/
theorem c6_add_at_playhead :
    (∀ (segments : List CaptionSegment) (playbackTime fps : ℚ) (newId : String),
      (handleAddCaptionFull playbackTime fps newId segments).2.1 =
          Selection.caption newId ∧
      (handleAddCaptionFull playbackTime fps newId segments).2.2 =
          [TraceEvent.renderFrame (playheadFrame playbackTime fps)] ∧
      sortedByStart (handleAddCaption playbackTime newId segments) ∧
      (handleAddCaption playbackTime newId segments).Perm
        (segments ++
          [{ id := newId, start := playbackTime, endTime := playbackTime + 2,
             text := "New caption" }])) ∧
    handleAddCaption 5 ("n") [⟨"a", 0, 2, "hi"⟩] =
      [⟨"a", 0, 2, "hi"⟩, ⟨"n", 5, 7, "New caption"⟩] ∧
    (∀ (segments : List SceneSegment) (playbackTime zoom : ℚ) (mode : SceneMode)
       (sel : Selection),
      (addSceneSegmentFull playbackTime zoom mode segments sel).2.1 = sel ∧
      (addSceneSegmentFull playbackTime zoom mode segments sel).2.2 = []) := by
  refine ⟨fun segments playbackTime fps newId => ⟨rfl, rfl, ?_, ?_⟩, ?_, fun _ _ _ _ _ => ⟨rfl, rfl⟩⟩
  · exact List.sorted_insertionSort _ _
  · exact List.perm_insertionSort _ _
  · show sortByStart _ = _
    unfold sortByStart
    with_unfolding_all decide

/-- C6 counterexample: the scene add action at playhead `t = 5` with
`zoom = 6` creates `{start: 5, end: 6}` — a 1-second, not 2-second,
duration — and neither selects the new segment nor schedules a refresh. -/
theorem c6_counterexample :
    addSceneSegmentFull 5 6 SceneMode.default [] Selection.none =
      ([⟨5, 6, SceneMode.default⟩], Selection.none, []) ∧
    ¬ ((⟨5, 6, SceneMode.default⟩ : SceneSegment).endTime -
        (⟨5, 6, SceneMode.default⟩ : SceneSegment).start = 2) := by
  with_unfolding_all decide

/-- C7 (amended): caption gestures are id-addressed with a stale-reference
guard: if the dragged id is no longer present, every remaining tick of the
gesture is a silent no-op — the collection is never written and the
gesture's trace contains no store write (only the pointer-up refresh) — and
in general a caption tick only ever modifies a segment carrying the dragged
id.  Scene gestures are index-addressed with no such guard: a tick writes to
whatever segment currently occupies the captured index (see the
counterexample), and an out-of-range index makes the write fail rather than
no-op. -/
theorem c7_stale_reference_guard :
    (∀ (ty : DragType) (snap : CaptionSegment) (deltas : List ℚ)
       (segments : List CaptionSegment) (playbackTime fps : ℚ),
      containsId segments snap.id = false →
        (runCaptionGesture ty snap deltas segments playbackTime fps).1 = segments ∧
        (runCaptionGesture ty snap deltas segments playbackTime fps).2 =
          [TraceEvent.renderFrame (playheadFrame playbackTime fps)]) ∧
    (∀ (ty : DragType) (snap : CaptionSegment) (delta : ℚ)
       (segments : List CaptionSegment),
      ∀ s' ∈ captionDragTick ty snap delta segments,
        s' ∈ segments ∨ s'.id = snap.id) := by
  constructor
  · intro ty snap deltas segments playbackTime fps h
    unfold runCaptionGesture
    rw [captionFold_of_not_contains ty snap deltas segments [] h]
    exact ⟨rfl, rfl⟩
  · intro ty snap delta segments s' hs'
    cases ty with
    | move =>
      rcases mem_updateById hs' with hmem | ⟨s, _, hid, rfl⟩
      · exact Or.inl hmem
      · exact Or.inr hid
    | resizingStart =>
      rcases mem_updateById hs' with hmem | ⟨s, _, hid, rfl⟩
      · exact Or.inl hmem
      · exact Or.inr hid
    | resizingEnd =>
      rcases mem_updateById hs' with hmem | ⟨s, _, hid, rfl⟩
      · exact Or.inl hmem
      · exact Or.inr hid

/-- Witness for C7: a two-tick move gesture whose snapshot id "z" is absent
from the collection leaves the collection untouched and writes nothing. -/
theorem c7_witness :
    (runCaptionGesture DragType.move ⟨"z", 0, 1, "t"⟩ [1, 2]
        [⟨"a", 0, 2, "hi"⟩] 0 30).1 = [⟨"a", 0, 2, "hi"⟩] ∧
    (runCaptionGesture DragType.move ⟨"z", 0, 1, "t"⟩ [1, 2]
        [⟨"a", 0, 2, "hi"⟩] 0 30).2 =
      [TraceEvent.renderFrame (playheadFrame 0 30)] :=
  c7_stale_reference_guard.1 DragType.move ⟨"z", 0, 1, "t"⟩ [1, 2]
    [⟨"a", 0, 2, "hi"⟩] 0 30 (by decide)

/-- C7 counterexample: a scene move gesture whose dragged segment `[0, 3]`
(captured at index 0) has been deleted, leaving only the unrelated segment
`[5, 8]` at index 0, does not terminate silently: the next tick writes, and
it overwrites the unrelated segment `[5, 8]` with `[1, 4]`. -/
theorem c7_counterexample :
    (⟨0, 3, SceneMode.default⟩ : SceneSegment) ∉
      ([⟨5, 8, SceneMode.default⟩] : List SceneSegment) ∧
    sceneDragTick DragType.move 0 ⟨0, 3, SceneMode.default⟩ 1
        [⟨5, 8, SceneMode.default⟩] =
      some [⟨1, 4, SceneMode.default⟩] ∧
    ([⟨1, 4, SceneMode.default⟩] : List SceneSegment) ≠
      [⟨5, 8, SceneMode.default⟩] := by
  with_unfolding_all decide

end Cap
